import Mathlib

/-!
Shallow embedding of netbox circuits/views.py: CRUD web views for the
circuits domain (providers, circuit types, circuits, terminations).
The module is a thin controller layer over an entity store; handlers are
modelled as pure functions from a request and a store to a response, an
updated store and a list of flash messages.
-/

namespace Circuits

/-- Entity Provider: a circuit vendor with a unique URL-safe slug. -/
structure Provider where
  pk : Nat
  name : String
  slug : String
deriving DecidableEq, Repr

/-- Entity Circuit: a logical link owned by a provider. -/
structure Circuit where
  pk : Nat
  providerPk : Nat
  typePk : Nat
  tenantPk : Option Nat
  sitePk : Nat
  name : String
deriving DecidableEq, Repr

/-- Entity Termination: one physical end of a circuit, bound to a site. -/
structure Termination where
  pk : Nat
  circuitPk : Nat
  sitePk : Nat
  name : String
deriving DecidableEq, Repr

/-- Modelled from the spec: extras.models.Graph is not under src/; the
provider detail view only tests whether a graph of the provider type
exists, so the model keeps just the type discriminator. -/
structure Graph where
  type : Nat
deriving DecidableEq, Repr

/-- Modelled from the spec: the provider graph-type constant from
extras.models (not under src/). Only its identity matters. -/
def GRAPH_TYPE_PROVIDER : Nat := 200

/-- The entity store: rows of every entity kind the views touch. -/
structure Store where
  providers : List Provider
  circuits : List Circuit
  terminations : List Termination
  graphs : List Graph
deriving DecidableEq, Repr

inductive Method where
  | GET
  | POST
deriving DecidableEq, Repr

/-- An HTTP request as the handlers observe it: the method, the posted
form fields, and the permissions carried by the caller identity. -/
structure Request where
  method : Method
  post : List (String × String)
  perms : List String
deriving DecidableEq, Repr

/-- Decimal parsing of a posted field value, as integer field cleaning
does: all digits and nonempty, else no value. -/
def parseNat (s : String) : Option Nat :=
  if s.data ≠ [] ∧ s.data.all (fun c => c.isDigit) then
    some (s.data.foldl (fun n c => n * 10 + (c.toNat - 48)) 0)
  else none

/-- Looks up a posted form field by key, first occurrence wins. -/
def lookupField (data : List (String × String)) (key : String) : Option String :=
  (data.find? (fun kv => kv.fst == key)).map (fun kv => kv.snd)

/-- Tests whether a form field key was posted at all, as the source tests
membership of a key in request.POST. -/
def hasKey (data : List (String × String)) (key : String) : Bool :=
  (data.find? (fun kv => kv.fst == key)).isSome

/-- Modelled from the spec: forms.TerminationForm is not under src/. A
bound form holds the posted data; an unbound form holds none. -/
structure TerminationForm where
  is_bound : Bool
  data : List (String × String)
deriving DecidableEq, Repr

/-- Modelled from the spec: a Termination requires a site reference; the
circuit reference is set server-side and is not required of the client.
An unbound form has no errors, as in the framework. -/
def TerminationForm.errors (f : TerminationForm) : List (String × String) :=
  if f.is_bound then
    match lookupField f.data "site" with
    | none => [("site", "This field is required.")]
    | some v =>
      match parseNat v with
      | none => [("site", "Enter a valid value.")]
      | some _ => []
  else []

/-- Framework semantics: a form is valid when it is bound and its error
set is empty. -/
def TerminationForm.is_valid (f : TerminationForm) : Bool :=
  f.is_bound && f.errors.isEmpty

/-- Modelled from the spec: form.save(commit=False) builds an unsaved
Termination from the posted data. The model passes the posted circuit
field through so that the handler overwrite is observable; an absent or
unparsable field defaults to 0 (no real circuit). The pk is assigned on
commit, not here. -/
def TerminationForm.saveNoCommit (f : TerminationForm) : Termination :=
  { pk := 0
    circuitPk := ((lookupField f.data "circuit").bind (fun v => parseNat v)).getD 0
    sitePk := ((lookupField f.data "site").bind (fun v => parseNat v)).getD 0
    name := (lookupField f.data "name").getD "" }

/-- Fresh primary key for a termination row: one past the maximum. -/
def Store.freshTerminationPk (s : Store) : Nat :=
  (s.terminations.foldl (fun m t => max m t.pk) 0) + 1

/-- Commit of an unsaved termination: the store assigns the fresh pk and
keeps the row. -/
def Store.saveTermination (s : Store) (t : Termination) : Store :=
  { s with terminations := { t with pk := s.freshTerminationPk } :: s.terminations }

/-- Modelled from the spec: utilities.forms.ConfirmationForm is not under
src/; it is valid when bound and the confirm field was posted. -/
structure ConfirmationForm where
  is_bound : Bool
  data : List (String × String)
deriving DecidableEq, Repr

/-- Confirmation requires the confirm field to be present. -/
def ConfirmationForm.errors (f : ConfirmationForm) : List (String × String) :=
  if f.is_bound then
    if hasKey f.data "confirm" then [] else [("confirm", "This field is required.")]
  else []

/-- Framework semantics: bound and no errors. -/
def ConfirmationForm.is_valid (f : ConfirmationForm) : Bool :=
  f.is_bound && f.errors.isEmpty

/-- Modelled from the spec: forms.ProviderForm is not under src/; per the
data model, name and slug are required fields of a Provider. -/
structure ProviderForm where
  is_bound : Bool
  data : List (String × String)
deriving DecidableEq, Repr

/-- Required-field validation for the provider form. -/
def ProviderForm.errors (f : ProviderForm) : List (String × String) :=
  if f.is_bound then
    (if (lookupField f.data "name").getD "" == "" then
      [("name", "This field is required.")] else []) ++
    (if (lookupField f.data "slug").getD "" == "" then
      [("slug", "This field is required.")] else [])
  else []

/-- Framework semantics: bound and no errors. -/
def ProviderForm.is_valid (f : ProviderForm) : Bool :=
  f.is_bound && f.errors.isEmpty

/-- Redirect targets named by the url-reversing calls in the source. -/
inductive Url where
  | terminationAdd (pk : Nat)
  | circuitDetail (pk : Nat)
  | providerDetail (slug : String)
  | providerList
deriving DecidableEq, Repr

/-- Template contexts the handlers render, one constructor per template
the embedded views use. -/
inductive Context where
  | providerDetail (p : Provider) (circuits : List Circuit) (show_graphs : Bool)
  | circuitDetail (c : Circuit)
  | terminationEdit (form : TerminationForm) (cancelUrlPk : Nat)
  | terminationDelete (t : Termination) (form : ConfirmationForm) (cancelUrlPk : Nat)
  | providerEdit (form : ProviderForm)
  | providerDelete (p : Provider) (form : ConfirmationForm)
  | bulkConfirm (form : ConfirmationForm)
deriving DecidableEq, Repr

/-- A handler response: the four observable outcomes of this layer. -/
inductive Response where
  | forbidden
  | notFound
  | redirect (target : Url)
  | render (template : String) (context : Context)
deriving DecidableEq, Repr

/-- What a handler yields: the response, the store after the request, and
the flash messages it emitted. -/
structure HandlerResult where
  response : Response
  store : Store
  messages : List String
deriving DecidableEq, Repr

/-- Detail view for a provider (function provider in views.py): fetch by
slug or 404, collect the circuits of the provider, test whether any
provider-type graph exists, and render. -/
def provider (_req : Request) (slug : String) (store : Store) : HandlerResult :=
  match store.providers.find? (fun p => p.slug == slug) with
  | none => ⟨Response.notFound, store, []⟩
  | some p =>
    let circuits := store.circuits.filter (fun c => c.providerPk == p.pk)
    let show_graphs := store.graphs.any (fun g => g.type == GRAPH_TYPE_PROVIDER)
    ⟨Response.render "circuits/provider.html" (Context.providerDetail p circuits show_graphs),
      store, []⟩

/-- Detail view for a circuit (function circuit in views.py): fetch by pk
or 404 and render; nothing else is fetched. -/
def circuit (_req : Request) (pk : Nat) (store : Store) : HandlerResult :=
  match store.circuits.find? (fun c => c.pk == pk) with
  | none => ⟨Response.notFound, store, []⟩
  | some c =>
    ⟨Response.render "circuits/circuit.html" (Context.circuitDetail c), store, []⟩

/-- Handler termination_add from views.py: permission gate, fetch the
circuit or 404, then on POST validate the form; when valid (and the
redundant inner errors check passes) save with the circuit reference
forced server-side and redirect; otherwise render the edit template. -/
def termination_add (req : Request) (pk : Nat) (store : Store) : HandlerResult :=
  if "circuits.change_circuit" ∈ req.perms then
    match store.circuits.find? (fun c => c.pk == pk) with
    | none => ⟨Response.notFound, store, []⟩
    | some c =>
      let render_form := fun (form : TerminationForm) =>
        (⟨Response.render "circuits/termination_edit.html"
          (Context.terminationEdit form c.pk), store, []⟩ : HandlerResult)
      if req.method = Method.POST then
        let form : TerminationForm := ⟨true, req.post⟩
        if form.is_valid then
          if form.errors = [] then
            let new_termination := { form.saveNoCommit with circuitPk := c.pk }
            let store' := store.saveTermination new_termination
            if hasKey req.post "_addanother" then
              ⟨Response.redirect (Url.terminationAdd c.pk), store', []⟩
            else
              ⟨Response.redirect (Url.circuitDetail c.pk), store', []⟩
          else render_form form
        else render_form form
      else render_form ⟨false, []⟩
  else ⟨Response.forbidden, store, []⟩

/-- Display of the parent circuit of a termination, as formatting
termination.circuit does in the success message. -/
def circuitDisplayOf (store : Store) (t : Termination) : String :=
  match store.circuits.find? (fun c => c.pk == t.circuitPk) with
  | some c => c.name
  | none => ""

/-- Handler termination_delete from views.py: permission gate, fetch the
termination or 404, then on confirmed POST delete the row, flash a
message naming the termination and its circuit, and redirect to the
parent circuit; otherwise render the confirmation prompt. -/
def termination_delete (req : Request) (pk : Nat) (store : Store) : HandlerResult :=
  if "circuits.delete_circuit" ∈ req.perms then
    match store.terminations.find? (fun t => t.pk == pk) with
    | none => ⟨Response.notFound, store, []⟩
    | some t =>
      let render_form := fun (form : ConfirmationForm) =>
        (⟨Response.render "circuits/termination_delete.html"
          (Context.terminationDelete t form t.circuitPk), store, []⟩ : HandlerResult)
      if req.method = Method.POST then
        let form : ConfirmationForm := ⟨true, req.post⟩
        if form.is_valid then
          let store' := { store with
            terminations := store.terminations.filter (fun u => !(u.pk == t.pk)) }
          ⟨Response.redirect (Url.circuitDetail t.circuitPk), store',
            ["Termination " ++ t.name ++ " has been deleted from " ++ circuitDisplayOf store t]⟩
        else render_form form
      else render_form ⟨false, []⟩
  else ⟨Response.forbidden, store, []⟩

/-- Fresh primary key for a provider row: one past the maximum. -/
def Store.freshProviderPk (s : Store) : Nat :=
  (s.providers.foldl (fun m p => max m p.pk) 0) + 1

/-- Form pre-population for the provider edit view: update mode binds the
initial data of the existing entity, create mode an empty form; either
way the form is unbound. -/
def providerInitialForm (existing : Option Provider) : ProviderForm :=
  match existing with
  | some p => ⟨false, [("name", p.name), ("slug", p.slug)]⟩
  | none => ⟨false, []⟩

/-- Modelled from the spec: the body of utilities.views.ObjectEditView
(not under src/) instantiated for Provider, per the Edit View contract.
On GET render the (possibly pre-populated) form; on POST validate, and
when valid persist and redirect to the entity detail page, or re-render
the empty form when the caller asked to add another; when invalid
re-render the bound form and persist nothing. -/
def providerEditBody (req : Request) (existing : Option Provider) (store : Store) :
    HandlerResult :=
  if req.method = Method.POST then
    let form : ProviderForm := ⟨true, req.post⟩
    if form.is_valid then
      let name := (lookupField req.post "name").getD ""
      let slug := (lookupField req.post "slug").getD ""
      let store' :=
        match existing with
        | some p =>
          { store with providers :=
              store.providers.map (fun q => if q.pk == p.pk then { q with name, slug } else q) }
        | none =>
          { store with providers := ⟨store.freshProviderPk, name, slug⟩ :: store.providers }
      if hasKey req.post "_addanother" then
        ⟨Response.render "circuits/provider_edit.html" (Context.providerEdit ⟨false, []⟩),
          store', []⟩
      else
        ⟨Response.redirect (Url.providerDetail slug), store', []⟩
    else
      ⟨Response.render "circuits/provider_edit.html" (Context.providerEdit form), store, []⟩
  else
    ⟨Response.render "circuits/provider_edit.html"
      (Context.providerEdit (providerInitialForm existing)), store, []⟩

/-- Modelled from the spec: ProviderEditView = PermissionRequiredMixin
over ObjectEditView with permission circuits.change_provider; denial
short-circuits before any data is touched. A slug argument selects
update mode and 404s when it resolves to no row. -/
def providerEditView (req : Request) (slugArg : Option String) (store : Store) :
    HandlerResult :=
  if "circuits.change_provider" ∈ req.perms then
    match slugArg with
    | some s =>
      match store.providers.find? (fun p => p.slug == s) with
      | none => ⟨Response.notFound, store, []⟩
      | some existing => providerEditBody req (some existing) store
    | none => providerEditBody req none store
  else ⟨Response.forbidden, store, []⟩

/-- Modelled from the spec: ProviderDeleteView = PermissionRequiredMixin
over ObjectDeleteView with permission circuits.delete_provider, per the
Delete View contract: confirmation prompt on GET, delete and redirect
with a success notice on confirmed POST. -/
def providerDeleteView (req : Request) (slug : String) (store : Store) : HandlerResult :=
  if "circuits.delete_provider" ∈ req.perms then
    match store.providers.find? (fun p => p.slug == slug) with
    | none => ⟨Response.notFound, store, []⟩
    | some p =>
      let render_form := fun (form : ConfirmationForm) =>
        (⟨Response.render "circuits/provider_delete.html"
          (Context.providerDelete p form), store, []⟩ : HandlerResult)
      if req.method = Method.POST then
        let form : ConfirmationForm := ⟨true, req.post⟩
        if form.is_valid then
          ⟨Response.redirect Url.providerList,
            { store with providers := store.providers.filter (fun q => !(q.pk == p.pk)) },
            ["Provider " ++ p.name ++ " has been deleted"]⟩
        else render_form form
      else render_form ⟨false, []⟩
  else ⟨Response.forbidden, store, []⟩

/-- Primary keys ticked in a bulk selection form. -/
def selectedPks (data : List (String × String)) : List Nat :=
  data.filterMap (fun kv => if kv.fst == "pk" then parseNat kv.snd else none)

/-- Modelled from the spec: ProviderBulkDeleteView = the framework
BulkDeleteView (not under src/) for Provider with permission
circuits.delete_provider: on confirmed POST delete the selected rows and
redirect to the provider list. -/
def providerBulkDeleteView (req : Request) (store : Store) : HandlerResult :=
  if "circuits.delete_provider" ∈ req.perms then
    let render_form := fun (form : ConfirmationForm) =>
      (⟨Response.render "utilities/bulk_delete.html"
        (Context.bulkConfirm form), store, []⟩ : HandlerResult)
    if req.method = Method.POST then
      let form : ConfirmationForm := ⟨true, req.post⟩
      if form.is_valid then
        let pks := selectedPks req.post
        ⟨Response.redirect Url.providerList,
          { store with providers := store.providers.filter (fun p => !(pks.contains p.pk)) },
          []⟩
      else render_form form
    else render_form ⟨false, []⟩
  else ⟨Response.forbidden, store, []⟩

/-- Modelled from the framework: the ORM Count annotation pairs each
parent row with the number of related child rows. -/
def annotateCount (parents : List α) (children : List β) (rel : α → β → Bool) :
    List (α × Nat) :=
  parents.map (fun p => (p, (children.filter (rel p)).length))

/-- Queryset of ProviderListView: providers annotated with
count_circuits = Count of related circuits. -/
def ProviderListView_queryset (store : Store) : List (Provider × Nat) :=
  annotateCount store.providers store.circuits (fun p c => c.providerPk == p.pk)

/-- Queryset of CircuitListView: circuits annotated with
count_terminations = Count of related terminations. -/
def CircuitListView_queryset (store : Store) : List (Circuit × Nat) :=
  annotateCount store.circuits store.terminations (fun c t => t.circuitPk == c.pk)

/-- Variant of termination_add with the redundant inner form.errors check
removed, for comparison with the source handler. -/
def termination_add_noGuard (req : Request) (pk : Nat) (store : Store) : HandlerResult :=
  if "circuits.change_circuit" ∈ req.perms then
    match store.circuits.find? (fun c => c.pk == pk) with
    | none => ⟨Response.notFound, store, []⟩
    | some c =>
      let render_form := fun (form : TerminationForm) =>
        (⟨Response.render "circuits/termination_edit.html"
          (Context.terminationEdit form c.pk), store, []⟩ : HandlerResult)
      if req.method = Method.POST then
        let form : TerminationForm := ⟨true, req.post⟩
        if form.is_valid then
          let new_termination := { form.saveNoCommit with circuitPk := c.pk }
          let store' := store.saveTermination new_termination
          if hasKey req.post "_addanother" then
            ⟨Response.redirect (Url.terminationAdd c.pk), store', []⟩
          else
            ⟨Response.redirect (Url.circuitDetail c.pk), store', []⟩
        else render_form form
      else render_form ⟨false, []⟩
  else ⟨Response.forbidden, store, []⟩

/-- Discriminator: is the response a template render. -/
def Response.isRender : Response → Bool
  | Response.render _ _ => true
  | _ => false

/-- Substring containment on strings, via an explicit decomposition of
the character list. -/
def containsStr (hay needle : String) : Prop :=
  ∃ a b : List Char, hay.data = a ++ needle.data ++ b

/-- Sample provider row used by concrete witnesses. -/
def pA : Provider := ⟨1, "Acme", "acme"⟩

/-- Sample circuit row used by concrete witnesses. -/
def cA : Circuit := ⟨1, 1, 1, none, 1, "CKT-1"⟩

/-- Sample termination row used by concrete witnesses. -/
def tA : Termination := ⟨1, 1, 5, "T-1"⟩

/-- Sample store with one row of each entity and no graphs. -/
def storeA : Store := ⟨[pA], [cA], [tA], []⟩

/-- Sample empty store. -/
def storeEmpty : Store := ⟨[], [], [], []⟩

/-- Fully unprivileged GET request. -/
def reqAnon : Request := ⟨Method.GET, [], []⟩

/-- A valid form becomes error-free: framework validity is boundness plus
an empty error set. -/
theorem TerminationForm.errors_eq_nil_of_valid (f : TerminationForm)
    (h : f.is_valid = true) : f.errors = [] := by
  unfold TerminationForm.is_valid at h
  rw [Bool.and_eq_true, List.isEmpty_iff] at h
  exact h.2

/-- C3: for every identifier that matches no row in the store, the detail
view returns NotFound, performs no store mutation and emits no message:
stated for the provider detail view (slug lookup) and the circuit detail
view (pk lookup). -/
theorem detail_views_notFound_on_absent_id (req : Request) (slug : String) (pk : Nat)
    (store : Store) :
    ((∀ p ∈ store.providers, p.slug ≠ slug) →
      provider req slug store = ⟨Response.notFound, store, []⟩) ∧
    ((∀ c ∈ store.circuits, c.pk ≠ pk) →
      circuit req pk store = ⟨Response.notFound, store, []⟩) := by
  constructor
  · intro h
    have hf : store.providers.find? (fun p => p.slug == slug) = none :=
      List.find?_eq_none.mpr (fun p hp => by simpa using h p hp)
    unfold provider
    rw [hf]
  · intro h
    have hf : store.circuits.find? (fun c => c.pk == pk) = none :=
      List.find?_eq_none.mpr (fun c hc => by simpa using h c hc)
    unfold circuit
    rw [hf]

/-- Witness for C3 at a concrete store holding no provider acme2 and no
circuit 7. -/
theorem detail_views_notFound_on_absent_id_witness :
    provider reqAnon "acme2" storeA = ⟨Response.notFound, storeA, []⟩ ∧
    circuit reqAnon 7 storeA = ⟨Response.notFound, storeA, []⟩ :=
  ⟨(detail_views_notFound_on_absent_id reqAnon "acme2" 7 storeA).1 (by decide),
   (detail_views_notFound_on_absent_id reqAnon "acme2" 7 storeA).2 (by decide)⟩

/-- C9: any request to termination_add that clears the permission gate
but names a pk matching no Circuit gets NotFound, with the store intact,
before any form processing. -/
theorem termination_add_notFound_on_absent_circuit (req : Request) (pk : Nat)
    (store : Store) (hperm : "circuits.change_circuit" ∈ req.perms)
    (habs : ∀ c ∈ store.circuits, c.pk ≠ pk) :
    termination_add req pk store = ⟨Response.notFound, store, []⟩ := by
  have hf : store.circuits.find? (fun c => c.pk == pk) = none :=
    List.find?_eq_none.mpr (fun c hc => by simpa using habs c hc)
  unfold termination_add
  rw [if_pos hperm, hf]

/-- Witness for C9: a privileged POST naming circuit 9, which does not
exist, creates nothing. -/
theorem termination_add_notFound_on_absent_circuit_witness :
    termination_add ⟨Method.POST, [("site", "5")], ["circuits.change_circuit"]⟩ 9 storeA =
      ⟨Response.notFound, storeA, []⟩ :=
  termination_add_notFound_on_absent_circuit
    ⟨Method.POST, [("site", "5")], ["circuits.change_circuit"]⟩ 9 storeA
    (by decide) (by decide)

/-- C2: every embedded write route answers a caller lacking its required
permission with Forbidden, leaves the store untouched and emits no
message: termination add and delete, the provider edit, delete and bulk
delete views. -/
theorem write_routes_forbidden_without_permission (req : Request) (store : Store)
    (pk pk2 : Nat) (slug : String) (slugArg : Option String) :
    ("circuits.change_circuit" ∉ req.perms →
      termination_add req pk store = ⟨Response.forbidden, store, []⟩) ∧
    ("circuits.delete_circuit" ∉ req.perms →
      termination_delete req pk2 store = ⟨Response.forbidden, store, []⟩) ∧
    ("circuits.change_provider" ∉ req.perms →
      providerEditView req slugArg store = ⟨Response.forbidden, store, []⟩) ∧
    ("circuits.delete_provider" ∉ req.perms →
      providerDeleteView req slug store = ⟨Response.forbidden, store, []⟩) ∧
    ("circuits.delete_provider" ∉ req.perms →
      providerBulkDeleteView req store = ⟨Response.forbidden, store, []⟩) :=
  ⟨fun h => by unfold termination_add; rw [if_neg h],
   fun h => by unfold termination_delete; rw [if_neg h],
   fun h => by unfold providerEditView; rw [if_neg h],
   fun h => by unfold providerDeleteView; rw [if_neg h],
   fun h => by unfold providerBulkDeleteView; rw [if_neg h]⟩

/-- Witness for C2: a POST carrying no permissions at all is Forbidden on
every write route, with the store unchanged. -/
theorem write_routes_forbidden_without_permission_witness :
    termination_add ⟨Method.POST, [("site", "5")], []⟩ 1 storeA =
      ⟨Response.forbidden, storeA, []⟩ ∧
    termination_delete ⟨Method.POST, [("site", "5")], []⟩ 1 storeA =
      ⟨Response.forbidden, storeA, []⟩ ∧
    providerEditView ⟨Method.POST, [("site", "5")], []⟩ none storeA =
      ⟨Response.forbidden, storeA, []⟩ ∧
    providerDeleteView ⟨Method.POST, [("site", "5")], []⟩ "acme" storeA =
      ⟨Response.forbidden, storeA, []⟩ ∧
    providerBulkDeleteView ⟨Method.POST, [("site", "5")], []⟩ storeA =
      ⟨Response.forbidden, storeA, []⟩ := by
  have h := write_routes_forbidden_without_permission
    ⟨Method.POST, [("site", "5")], []⟩ storeA 1 1 "acme" none
  exact ⟨h.1 (by decide), h.2.1 (by decide), h.2.2.1 (by decide),
    h.2.2.2.1 (by decide), h.2.2.2.2 (by decide)⟩

/-- C10: the inner check that the form has no errors, nested under the
successful validation check in termination_add, is redundant: the
handler equals the variant without it on every input. -/
theorem termination_add_inner_guard_redundant (req : Request) (pk : Nat) (store : Store) :
    termination_add req pk store = termination_add_noGuard req pk store := by
  by_cases hp : "circuits.change_circuit" ∈ req.perms
  · unfold termination_add termination_add_noGuard
    cases hfind : store.circuits.find? (fun c => c.pk == pk) with
    | none => simp [hp, hfind]
    | some c =>
      by_cases hm : req.method = Method.POST
      · by_cases hv : (⟨true, req.post⟩ : TerminationForm).is_valid
        · have he := TerminationForm.errors_eq_nil_of_valid _ hv
          simp [hp, hfind, hm, hv, he]
        · simp [hp, hfind, hm, hv]
      · simp [hp, hfind, hm]
  · unfold termination_add termination_add_noGuard
    rw [if_neg hp, if_neg hp]

/-- Privileged POST with a valid site field and no addanother flag. -/
def reqValidSite : Request :=
  ⟨Method.POST, [("site", "5"), ("circuit", "999")], ["circuits.change_circuit"]⟩

/-- Privileged POST with a valid site field and the addanother flag. -/
def reqAddAnother : Request :=
  ⟨Method.POST, [("site", "5"), ("_addanother", "")], ["circuits.change_circuit"]⟩

/-- Privileged POST missing every required field. -/
def reqInvalidPost : Request :=
  ⟨Method.POST, [("circuit", "1")], ["circuits.change_circuit", "circuits.change_provider"]⟩

/-- Privileged confirmed deletion POST. -/
def reqConfirmDelete : Request :=
  ⟨Method.POST, [("confirm", "on")], ["circuits.delete_circuit"]⟩

/-- Sample store identical to storeA except that a provider-type graph is
configured. -/
def storeG : Store := ⟨[pA], [cA], [tA], [⟨GRAPH_TYPE_PROVIDER⟩]⟩

/-- C1: every termination present after a request to termination_add for
circuit pk either predates the request or carries circuit reference pk:
the handler forces the reference server-side, whatever the posted fields
said. -/
theorem termination_add_forces_circuit_ref (req : Request) (pk : Nat) (store : Store)
    (t : Termination) (h : t ∈ (termination_add req pk store).store.terminations) :
    t ∈ store.terminations ∨ t.circuitPk = pk := by
  by_cases hp : "circuits.change_circuit" ∈ req.perms
  · unfold termination_add at h
    cases hfind : store.circuits.find? (fun c => c.pk == pk) with
    | none =>
      rw [hfind] at h
      simp [hp] at h
      exact Or.inl h
    | some c =>
      have hcpk : c.pk = pk := by simpa using List.find?_some hfind
      rw [hfind] at h
      by_cases hm : req.method = Method.POST
      · by_cases hv : (⟨true, req.post⟩ : TerminationForm).is_valid
        · have he := TerminationForm.errors_eq_nil_of_valid _ hv
          by_cases ha : hasKey req.post "_addanother"
          · simp [hp, hm, hv, he, ha, Store.saveTermination] at h
            rcases h with h | h
            · right; rw [h]; exact hcpk
            · exact Or.inl h
          · simp [hp, hm, hv, he, ha, Store.saveTermination] at h
            rcases h with h | h
            · right; rw [h]; exact hcpk
            · exact Or.inl h
        · simp [hp, hm, hv] at h
          exact Or.inl h
      · simp [hp, hm] at h
        exact Or.inl h
  · unfold termination_add at h
    simp [hp] at h
    exact Or.inl h

/-- Witness for C1: posting circuit=999 to the add endpoint of circuit 1
creates a termination whose circuit reference is 1. -/
theorem termination_add_forces_circuit_ref_witness :
    (⟨2, 1, 5, ""⟩ : Termination) ∈ (termination_add reqValidSite 1 storeA).store.terminations ∧
    ((⟨2, 1, 5, ""⟩ : Termination) ∈ storeA.terminations ∨
      (⟨2, 1, 5, ""⟩ : Termination).circuitPk = 1) :=
  ⟨by decide, termination_add_forces_circuit_ref reqValidSite 1 storeA ⟨2, 1, 5, ""⟩ (by decide)⟩

/-- C4: a POST whose fields fail validation re-renders the same bound
form, which carries a nonempty error set, persists nothing and does not
redirect: stated for termination_add and the provider edit view in
create mode. -/
theorem edit_invalid_rerenders_without_persisting (req : Request) (pk : Nat) (store : Store)
    (hm : req.method = Method.POST) :
    (∀ c, "circuits.change_circuit" ∈ req.perms →
      store.circuits.find? (fun x => x.pk == pk) = some c →
      (⟨true, req.post⟩ : TerminationForm).is_valid = false →
      termination_add req pk store =
        ⟨Response.render "circuits/termination_edit.html"
          (Context.terminationEdit ⟨true, req.post⟩ c.pk), store, []⟩ ∧
      (⟨true, req.post⟩ : TerminationForm).errors ≠ []) ∧
    ("circuits.change_provider" ∈ req.perms →
      (⟨true, req.post⟩ : ProviderForm).is_valid = false →
      providerEditView req none store =
        ⟨Response.render "circuits/provider_edit.html"
          (Context.providerEdit ⟨true, req.post⟩), store, []⟩ ∧
      (⟨true, req.post⟩ : ProviderForm).errors ≠ []) := by
  constructor
  · intro c hperm hfind hv
    constructor
    · unfold termination_add
      rw [hfind]
      simp [hperm, hm, hv]
    · intro hnil
      unfold TerminationForm.is_valid at hv
      rw [hnil] at hv
      simp at hv
  · intro hperm hv
    constructor
    · unfold providerEditView providerEditBody
      simp [hperm, hm, hv]
    · intro hnil
      unfold ProviderForm.is_valid at hv
      rw [hnil] at hv
      simp at hv

/-- Witness for C4: a POST missing the required site, name and slug
fields re-renders both forms with errors and leaves the store as it
was. -/
theorem edit_invalid_rerenders_without_persisting_witness :
    (termination_add reqInvalidPost 1 storeA =
      ⟨Response.render "circuits/termination_edit.html"
        (Context.terminationEdit ⟨true, reqInvalidPost.post⟩ cA.pk), storeA, []⟩ ∧
      (⟨true, reqInvalidPost.post⟩ : TerminationForm).errors ≠ []) ∧
    (providerEditView reqInvalidPost none storeA =
      ⟨Response.render "circuits/provider_edit.html"
        (Context.providerEdit ⟨true, reqInvalidPost.post⟩), storeA, []⟩ ∧
      (⟨true, reqInvalidPost.post⟩ : ProviderForm).errors ≠ []) :=
  ⟨(edit_invalid_rerenders_without_persisting reqInvalidPost 1 storeA (by decide)).1
      cA (by decide) (by decide) (by decide),
   (edit_invalid_rerenders_without_persisting reqInvalidPost 1 storeA (by decide)).2
      (by decide) (by decide)⟩

/-- C5: a confirmed termination deletion removes exactly the row with the
pk of the fetched termination, touches no other table, redirects to the
parent circuit, and flashes a notice containing both the termination
display name and the parent circuit display name. -/
theorem termination_delete_exact_row_and_notice (req : Request) (pk : Nat) (store : Store)
    (t : Termination) (c : Circuit)
    (hperm : "circuits.delete_circuit" ∈ req.perms)
    (hfind : store.terminations.find? (fun u => u.pk == pk) = some t)
    (hm : req.method = Method.POST)
    (hconf : hasKey req.post "confirm" = true)
    (hcirc : store.circuits.find? (fun x => x.pk == t.circuitPk) = some c) :
    (termination_delete req pk store).store =
      { store with terminations := store.terminations.filter (fun u => !(u.pk == t.pk)) } ∧
    (termination_delete req pk store).messages =
      ["Termination " ++ t.name ++ " has been deleted from " ++ c.name] ∧
    containsStr ("Termination " ++ t.name ++ " has been deleted from " ++ c.name) t.name ∧
    containsStr ("Termination " ++ t.name ++ " has been deleted from " ++ c.name) c.name ∧
    (termination_delete req pk store).response =
      Response.redirect (Url.circuitDetail t.circuitPk) := by
  have hv : (⟨true, req.post⟩ : ConfirmationForm).is_valid = true := by
    unfold ConfirmationForm.is_valid ConfirmationForm.errors
    simp [hconf]
  refine ⟨?_, ?_, ?_, ?_, ?_⟩
  · unfold termination_delete
    rw [hfind]
    simp [hperm, hm, hv]
  · unfold termination_delete
    rw [hfind]
    simp [hperm, hm, hv, circuitDisplayOf, hcirc]
  · exact ⟨"Termination ".data, (" has been deleted from " ++ c.name).data,
      by simp [String.data_append]⟩
  · exact ⟨("Termination " ++ t.name ++ " has been deleted from ").data, [],
      by simp [String.data_append]⟩
  · unfold termination_delete
    rw [hfind]
    simp [hperm, hm, hv]

/-- Witness for C5: deleting termination 1 of circuit CKT-1 empties the
termination table and flashes the combined notice. -/
theorem termination_delete_exact_row_and_notice_witness :
    (termination_delete reqConfirmDelete 1 storeA).store =
      { storeA with terminations := storeA.terminations.filter (fun u => !(u.pk == tA.pk)) } ∧
    (termination_delete reqConfirmDelete 1 storeA).messages =
      ["Termination " ++ tA.name ++ " has been deleted from " ++ cA.name] ∧
    containsStr ("Termination " ++ tA.name ++ " has been deleted from " ++ cA.name) tA.name ∧
    containsStr ("Termination " ++ tA.name ++ " has been deleted from " ++ cA.name) cA.name ∧
    (termination_delete reqConfirmDelete 1 storeA).response =
      Response.redirect (Url.circuitDetail tA.circuitPk) :=
  termination_delete_exact_row_and_notice reqConfirmDelete 1 storeA tA cA
    (by decide) (by decide) (by decide) (by decide) (by decide)

/-- C6 as stated is false on termination_add: a valid submission carrying
the addanother flag persists the termination but answers with a redirect
back to the add endpoint, not with a rendered empty form. -/
theorem termination_add_addanother_redirects_counterexample :
    (termination_add reqAddAnother 1 storeA).store.terminations.length =
      storeA.terminations.length + 1 ∧
    Response.isRender (termination_add reqAddAnother 1 storeA).response = false ∧
    (termination_add reqAddAnother 1 storeA).response =
      Response.redirect (Url.terminationAdd 1) := by decide

/-- C6 amended: a valid POST to termination_add persists the termination
with pk and circuit reference assigned server-side, then redirects: back
to the add endpoint when addanother was posted, otherwise to the parent
circuit detail page. -/
theorem termination_add_valid_persists_and_redirects (req : Request) (pk : Nat)
    (store : Store) (c : Circuit)
    (hperm : "circuits.change_circuit" ∈ req.perms)
    (hfind : store.circuits.find? (fun x => x.pk == pk) = some c)
    (hm : req.method = Method.POST)
    (hv : (⟨true, req.post⟩ : TerminationForm).is_valid = true) :
    (termination_add req pk store).store.terminations =
      { (⟨true, req.post⟩ : TerminationForm).saveNoCommit with
          pk := store.freshTerminationPk, circuitPk := c.pk } :: store.terminations ∧
    (termination_add req pk store).response =
      (if hasKey req.post "_addanother" then Response.redirect (Url.terminationAdd c.pk)
       else Response.redirect (Url.circuitDetail c.pk)) := by
  have he := TerminationForm.errors_eq_nil_of_valid _ hv
  by_cases ha : hasKey req.post "_addanother"
  · constructor <;>
      (unfold termination_add; rw [hfind]; simp [hperm, hm, hv, he, ha, Store.saveTermination])
  · constructor <;>
      (unfold termination_add; rw [hfind]; simp [hperm, hm, hv, he, ha, Store.saveTermination])

/-- Witness for the amended C6 at a concrete valid POST without the
addanother flag. -/
theorem termination_add_valid_persists_and_redirects_witness :
    (termination_add reqValidSite 1 storeA).store.terminations =
      { (⟨true, reqValidSite.post⟩ : TerminationForm).saveNoCommit with
          pk := storeA.freshTerminationPk, circuitPk := cA.pk } :: storeA.terminations ∧
    (termination_add reqValidSite 1 storeA).response =
      (if hasKey reqValidSite.post "_addanother" then
        Response.redirect (Url.terminationAdd cA.pk)
       else Response.redirect (Url.circuitDetail cA.pk)) :=
  termination_add_valid_persists_and_redirects reqValidSite 1 storeA cA
    (by decide) (by decide) (by decide) (by decide)

/-- C7 as stated is false: the circuit detail view renders the same
response whether or not graphable metrics are configured, while the
provider detail view is the one whose rendering reflects them. -/
theorem circuit_detail_ignores_graphs_counterexample :
    storeA.graphs ≠ storeG.graphs ∧
    (circuit reqAnon 1 storeA).response = (circuit reqAnon 1 storeG).response ∧
    (provider reqAnon "acme" storeA).response ≠ (provider reqAnon "acme" storeG).response := by
  decide

/-- C7 amended: the provider detail view fetches whether any
provider-type graph is configured and renders it; the circuit detail
view renders only the circuit, its response is independent of the graphs
table, and neither view mutates the store. -/
theorem provider_detail_fetches_graphs_amended (req : Request) (slug : String) (pk : Nat)
    (store : Store) (p : Provider) (c : Circuit) (gs : List Graph)
    (hp : store.providers.find? (fun q => q.slug == slug) = some p)
    (hc : store.circuits.find? (fun x => x.pk == pk) = some c) :
    provider req slug store =
      ⟨Response.render "circuits/provider.html"
        (Context.providerDetail p (store.circuits.filter (fun x => x.providerPk == p.pk))
          (store.graphs.any (fun g => g.type == GRAPH_TYPE_PROVIDER))), store, []⟩ ∧
    circuit req pk store =
      ⟨Response.render "circuits/circuit.html" (Context.circuitDetail c), store, []⟩ ∧
    (circuit req pk { store with graphs := gs }).response =
      (circuit req pk store).response := by
  refine ⟨?_, ?_, ?_⟩
  · unfold provider
    rw [hp]
  · unfold circuit
    rw [hc]
  · unfold circuit
    simp only []
    rw [show ({ store with graphs := gs } : Store).circuits = store.circuits from rfl, hc]

/-- Witness for the amended C7 at the sample store. -/
theorem provider_detail_fetches_graphs_amended_witness :
    provider reqAnon "acme" storeA =
      ⟨Response.render "circuits/provider.html"
        (Context.providerDetail pA (storeA.circuits.filter (fun x => x.providerPk == pA.pk))
          (storeA.graphs.any (fun g => g.type == GRAPH_TYPE_PROVIDER))), storeA, []⟩ ∧
    circuit reqAnon 1 storeA =
      ⟨Response.render "circuits/circuit.html" (Context.circuitDetail cA), storeA, []⟩ ∧
    (circuit reqAnon 1 { storeA with graphs := [⟨GRAPH_TYPE_PROVIDER⟩] }).response =
      (circuit reqAnon 1 storeA).response :=
  provider_detail_fetches_graphs_amended reqAnon "acme" 1 storeA pA cA
    [⟨GRAPH_TYPE_PROVIDER⟩] (by decide) (by decide)

/-- C8: every row of the provider list queryset is annotated with the
number of circuits of that provider, and every row of the circuit list
queryset with the number of terminations of that circuit. -/
theorem list_views_annotate_child_counts (store : Store) (p : Provider) (c : Circuit)
    (n m : Nat)
    (hp : (p, n) ∈ ProviderListView_queryset store)
    (hc : (c, m) ∈ CircuitListView_queryset store) :
    n = (store.circuits.filter (fun x => x.providerPk == p.pk)).length ∧
    m = (store.terminations.filter (fun t => t.circuitPk == c.pk)).length := by
  unfold ProviderListView_queryset annotateCount at hp
  unfold CircuitListView_queryset annotateCount at hc
  simp only [List.mem_map, Prod.mk.injEq] at hp hc
  obtain ⟨q, _, rfl, rfl⟩ := hp
  obtain ⟨d, _, rfl, rfl⟩ := hc
  exact ⟨rfl, rfl⟩

/-- Witness for C8 at the sample store: the single provider row counts
one circuit, the single circuit row counts one termination. -/
theorem list_views_annotate_child_counts_witness :
    (1 : Nat) = (storeA.circuits.filter (fun x => x.providerPk == pA.pk)).length ∧
    (1 : Nat) = (storeA.terminations.filter (fun t => t.circuitPk == cA.pk)).length :=
  list_views_annotate_child_counts storeA pA cA 1 1 (by decide) (by decide)

end Circuits
